import Mathlib

/- Verification of lev, an AWS Lambda environment-variable manager.
A shallow embedding of src/main.rs and src/error.rs: the environment
mapping and its two merge operations, the environment extractor, the
fetch/merge/write orchestration over an abstract remote client, the
two-variant operation error type, and the key=value argument splitter.
Theorems settle the specification's claims about these definitions. -/

namespace Lev

/-- Environment mapping (Rust: type Env = HashMap<String, String>),
modelled by its lookup function: a key maps to some value or is absent. -/
def Env : Type := String → Option String

/-- The empty environment (HashMap::default()). -/
def Env.empty : Env := fun _ => none

/-- Hash-map insertion: overwrites any binding for k, keeps the rest. -/
def Env.insert (m : Env) (k v : String) : Env :=
  fun q => if q = k then some v else m q

/-- The merged mapping of the set path (main.rs line 90:
current.into_iter().chain(vars).collect() — collecting into a HashMap
inserts each pair in iteration order with later pairs overwriting earlier
ones, so the result is current with each pair of vars upserted in order). -/
def assignMerge (current : Env) (vars : List (String × String)) : Env :=
  vars.foldl (fun acc kv => acc.insert kv.1 kv.2) current

/-- The merged mapping of the unset path (main.rs lines 116-120:
current.into_iter().filter(|(k, _)| !names.contains(k)).collect()). -/
def removeMerge (current : Env) (names : List String) : Env :=
  fun q => if names.contains q then none else current q

/-- rusoto EnvironmentResponse: the environment block of a returned
configuration snapshot; its vars field models the rusoto variables field
(renamed because its Rust name is a reserved word here), the only field
the core consumes. -/
structure EnvironmentResponse where
  vars : Option Env

/-- rusoto Environment: the environment block sent in an update request;
vars models the rusoto variables field. -/
structure Environment where
  vars : Option Env

/-- rusoto FunctionConfiguration: the configuration snapshot; the core
reads only the environment block, all other fields are inert. -/
structure FunctionConfiguration where
  environment : Option EnvironmentResponse

/-- rusoto GetFunctionConfigurationRequest: main.rs sets only
function_name (the rest stays at ..Default::default()). -/
structure GetFunctionConfigurationRequest where
  functionName : String

/-- rusoto UpdateFunctionConfigurationRequest: the two fields main.rs
sets (function_name and environment; the rest stays at its default). -/
structure UpdateFunctionConfigurationRequest where
  functionName : String
  environment : Option Environment

/-- The remote client (rusoto LambdaClient), abstracted as its two remote
operations, each returning a configuration snapshot or an opaque remote
error (RusotoError of the respective operation). -/
structure LambdaClient (GErr UErr : Type) where
  getFunctionConfiguration :
    GetFunctionConfigurationRequest → Except GErr FunctionConfiguration
  updateFunctionConfiguration :
    UpdateFunctionConfigurationRequest → Except UErr FunctionConfiguration

/-- The operation error type (src/error.rs lines 5-11): GetConfig wraps a
fetch-stage remote error, UpdateConfig wraps a write-stage remote error;
the From impls (lines 13-23) are the two constructors. -/
inductive Error (GErr UErr : Type) where
  | GetConfig (e : GErr)
  | UpdateConfig (e : UErr)

/-- The environment extractor (main.rs lines 58-62):
conf.environment.map(|env| env.variables.unwrap_or_default()).unwrap_or_default(). -/
def env (conf : FunctionConfiguration) : Env :=
  (conf.environment.map fun e => e.vars.getD Env.empty).getD Env.empty

variable {GErr UErr : Type}

/-- get (main.rs lines 64-77): fetch the configuration of the named
function and extract its environment; fails with the raw remote error. -/
def get (lambda : LambdaClient GErr UErr) (function : String) : Except GErr Env :=
  (lambda.getFunctionConfiguration { functionName := function }).map env

/-- The update request built identically by both mutation paths
(main.rs lines 93-98 and 121-127): the function name plus the desired
mapping wrapped as the entire new environment block. -/
def updateRequest (function : String) (desired : Env) :
    UpdateFunctionConfigurationRequest :=
  { functionName := function, environment := some { vars := some desired } }

/-- set (main.rs lines 79-103): fetch (failure tagged Error::GetConfig via
Error::from), merge vars into the fetched mapping, then update with the
merged mapping as the whole environment block (failure tagged
Error::UpdateConfig) and extract the environment of the returned snapshot. -/
def set (lambda : LambdaClient GErr UErr) (function : String)
    (vars : List (String × String)) : Except (Error GErr UErr) Env :=
  ((get lambda function).mapError Error.GetConfig).bind fun current =>
    ((lambda.updateFunctionConfiguration
        (updateRequest function (assignMerge current vars))).map env).mapError
      Error.UpdateConfig

/-- unset (main.rs lines 105-131): like set, except the named keys are
filtered out of the fetched mapping. -/
def unset (lambda : LambdaClient GErr UErr) (function : String)
    (names : List String) : Except (Error GErr UErr) Env :=
  ((get lambda function).mapError Error.GetConfig).bind fun current =>
    ((lambda.updateFunctionConfiguration
        (updateRequest function (removeMerge current names))).map env).mapError
      Error.UpdateConfig

/-- The read-only path of main (main.rs lines 157-161):
get(...).map_err(Error::from), before handing off to the rendering
collaborator. -/
def mainGet (lambda : LambdaClient GErr UErr) (function : String) :
    Except (Error GErr UErr) Env :=
  (get lambda function).mapError Error.GetConfig

/-- Index of the first occurrence of the separator character
(Rust s.find on the ASCII char, main.rs lines 26-28). -/
def findEq : List Char → Option Nat
  | [] => none
  | c :: rest => if c = '=' then some 0 else (findEq rest).map (· + 1)

/-- parse_key_val (main.rs lines 19-30) at the String/String instantiation
the set command uses (String::from_str never fails): split at the first
occurrence of the separator, failing when there is none; strings are
modelled as lists of characters. -/
def parse_key_val (s : List Char) : Option (List Char × List Char) :=
  match findEq s with
  | none => none
  | some pos => some (s.take pos, s.drop (pos + 1))

/-- The value of the last pair of vars whose key is k, if any. -/
def lastValue (vars : List (String × String)) (k : String) : Option String :=
  match vars with
  | [] => none
  | kv :: rest =>
    match lastValue rest k with
    | some v => some v
    | none => if kv.1 = k then some kv.2 else none

/-- The first option when it is present, otherwise the fallback. -/
def orDefault (o d : Option String) : Option String :=
  match o with
  | some v => some v
  | none => d

theorem assignMerge_apply (vars : List (String × String)) :
    ∀ (m : Env) (k : String),
      assignMerge m vars k = orDefault (lastValue vars k) (m k) := by
  induction vars with
  | nil => intro m k; rfl
  | cons kv rest ih =>
    intro m k
    show assignMerge (m.insert kv.1 kv.2) rest k = _
    rw [ih]
    cases h : lastValue rest k with
    | some v => simp [lastValue, h, orDefault]
    | none =>
      by_cases hk : kv.1 = k
      · subst hk
        simp [lastValue, h, orDefault, Env.insert]
      · have hk2 : ¬ k = kv.1 := fun hh => hk hh.symm
        simp [lastValue, h, orDefault, Env.insert, hk, hk2]

theorem lastValue_eq_none (vars : List (String × String)) (k : String)
    (h : k ∉ vars.map Prod.fst) : lastValue vars k = none := by
  induction vars with
  | nil => rfl
  | cons kv rest ih =>
    simp only [List.map_cons, List.mem_cons] at h
    push_neg at h
    have hk : ¬ kv.1 = k := fun hh => h.1 hh.symm
    simp [lastValue, ih h.2, hk]

theorem lastValue_isSome (vars : List (String × String)) (k : String)
    (h : k ∈ vars.map Prod.fst) : (lastValue vars k).isSome = true := by
  induction vars with
  | nil => simp at h
  | cons kv rest ih =>
    simp only [List.map_cons, List.mem_cons] at h
    cases hr : lastValue rest k with
    | some v => simp [lastValue, hr]
    | none =>
      simp only [lastValue, hr]
      rcases h with h | h
      · simp [h.symm]
      · have hs := ih h
        rw [hr] at hs
        simp at hs

theorem removeMerge_apply (m : Env) (names : List String) (k : String) :
    removeMerge m names k = if k ∈ names then none else m k := by
  simp only [removeMerge]
  by_cases h : k ∈ names
  · rw [if_pos (List.elem_iff.mpr h), if_pos h]
  · rw [if_neg (fun hc => h (List.elem_iff.mp hc)), if_neg h]

theorem set_of_fetch_error (c : LambdaClient GErr UErr) (function : String)
    (vars : List (String × String)) (e : GErr)
    (h : c.getFunctionConfiguration { functionName := function } = Except.error e) :
    set c function vars = Except.error (Error.GetConfig e) := by
  unfold set get
  rw [h]
  rfl

theorem unset_of_fetch_error (c : LambdaClient GErr UErr) (function : String)
    (names : List String) (e : GErr)
    (h : c.getFunctionConfiguration { functionName := function } = Except.error e) :
    unset c function names = Except.error (Error.GetConfig e) := by
  unfold unset get
  rw [h]
  rfl

theorem set_of_fetch_ok (c : LambdaClient GErr UErr) (function : String)
    (vars : List (String × String)) (conf : FunctionConfiguration)
    (h : c.getFunctionConfiguration { functionName := function } = Except.ok conf) :
    set c function vars
      = ((c.updateFunctionConfiguration
          (updateRequest function (assignMerge (env conf) vars))).map env).mapError
          Error.UpdateConfig := by
  unfold set get
  rw [h]
  rfl

theorem unset_of_fetch_ok (c : LambdaClient GErr UErr) (function : String)
    (names : List String) (conf : FunctionConfiguration)
    (h : c.getFunctionConfiguration { functionName := function } = Except.ok conf) :
    unset c function names
      = ((c.updateFunctionConfiguration
          (updateRequest function (removeMerge (env conf) names))).map env).mapError
          Error.UpdateConfig := by
  unfold unset get
  rw [h]
  rfl

/-- A concrete nonempty environment used by concrete instantiations. -/
def demoEnv : Env := (Env.empty.insert "keep" "old").insert "bar" "orig"

/-- C1: for every current mapping m and pair sequence p, the merged mapping
of an Assign request maps every key occurring in p to the value of the last
pair in p with that key, and agrees with m on every key not occurring in p. -/
theorem claim_C1 (m : Env) (p : List (String × String)) (k : String) :
    (k ∈ p.map Prod.fst → assignMerge m p k = lastValue p k) ∧
    (k ∉ p.map Prod.fst → assignMerge m p k = m k) := by
  constructor
  · intro h
    rw [assignMerge_apply]
    have hs := lastValue_isSome p k h
    cases hl : lastValue p k with
    | some v => rfl
    | none => rw [hl] at hs; simp at hs
  · intro h
    rw [assignMerge_apply, lastValue_eq_none p k h]
    rfl

theorem claim_C1_witness :
    assignMerge demoEnv [("bar", "baz"), ("bar", "qux")] "bar"
        = lastValue [("bar", "baz"), ("bar", "qux")] "bar" ∧
    lastValue [("bar", "baz"), ("bar", "qux")] "bar" = some "qux" ∧
    assignMerge demoEnv [("bar", "baz"), ("bar", "qux")] "keep" = demoEnv "keep" :=
  ⟨(claim_C1 demoEnv [("bar", "baz"), ("bar", "qux")] "bar").1 (by decide),
   by decide,
   (claim_C1 demoEnv [("bar", "baz"), ("bar", "qux")] "keep").2 (by decide)⟩

/-- C2: for every current mapping m and name sequence n, the merged mapping
of a Remove request contains no key from n and agrees with m on every other
key; removing an absent name is not an error and touches nothing else. -/
theorem claim_C2 (m : Env) (names : List String) (k : String) :
    (k ∈ names → removeMerge m names k = none) ∧
    (k ∉ names → removeMerge m names k = m k) := by
  constructor
  · intro h
    rw [removeMerge_apply, if_pos h]
  · intro h
    rw [removeMerge_apply, if_neg h]

theorem claim_C2_witness :
    removeMerge demoEnv ["bar", "missing"] "bar" = none ∧
    removeMerge demoEnv ["bar", "missing"] "keep" = demoEnv "keep" :=
  ⟨(claim_C2 demoEnv ["bar", "missing"] "bar").1 (by decide),
   (claim_C2 demoEnv ["bar", "missing"] "keep").2 (by decide)⟩

/-- C6: the environment extractor is total and never fails; it returns the
empty mapping when the snapshot has no environment block or the block has
no variable list, and otherwise exactly the variables the block carries. -/
theorem claim_C6 (conf : FunctionConfiguration) :
    (conf.environment = none → env conf = Env.empty) ∧
    (∀ er, conf.environment = some er → er.vars = none → env conf = Env.empty) ∧
    (∀ er vs, conf.environment = some er → er.vars = some vs → env conf = vs) := by
  refine ⟨?_, ?_, ?_⟩
  · intro h
    simp [env, h]
  · intro er h hv
    simp [env, h, hv]
  · intro er vs h hv
    simp [env, h, hv]

theorem claim_C6_witness :
    env { environment := none } = Env.empty ∧
    env { environment := some { vars := none } } = Env.empty ∧
    env { environment := some { vars := some demoEnv } } = demoEnv :=
  ⟨(claim_C6 { environment := none }).1 rfl,
   (claim_C6 { environment := some { vars := none } }).2.1 { vars := none } rfl rfl,
   (claim_C6 { environment := some { vars := some demoEnv } }).2.2
     { vars := some demoEnv } demoEnv rfl rfl⟩

/-- C8: merging is idempotent for both request kinds: applying the same
Assign pair list twice, or the same Remove name list twice, yields the same
mapping as applying it once. -/
theorem claim_C8 (m : Env) (p : List (String × String)) (n : List String) :
    assignMerge (assignMerge m p) p = assignMerge m p ∧
    removeMerge (removeMerge m n) n = removeMerge m n := by
  constructor
  · funext k
    rw [assignMerge_apply, assignMerge_apply]
    cases lastValue p k with
    | some v => rfl
    | none => rfl
  · funext k
    rw [removeMerge_apply (removeMerge m n) n k, removeMerge_apply m n k]
    by_cases h : k ∈ n
    · rw [if_pos h, if_pos h]
    · rw [if_neg h, if_neg h]

/-- C3: whenever the fetch stage fails, both mutation paths fail with the
fetch-stage tag wrapping the underlying remote error, and the result does
not depend on the write operation at all (the same conclusion holds for
every client sharing the failing fetch behaviour, whatever its write
behaviour), so the replace-configuration call is never consulted. -/
theorem claim_C3 (c₁ c₂ : LambdaClient GErr UErr) (function : String)
    (vars : List (String × String)) (names : List String) (e : GErr)
    (hsame : c₂.getFunctionConfiguration = c₁.getFunctionConfiguration)
    (h : c₁.getFunctionConfiguration { functionName := function } = Except.error e) :
    set c₁ function vars = Except.error (Error.GetConfig e) ∧
    set c₂ function vars = Except.error (Error.GetConfig e) ∧
    unset c₁ function names = Except.error (Error.GetConfig e) ∧
    unset c₂ function names = Except.error (Error.GetConfig e) := by
  have h₂ : c₂.getFunctionConfiguration { functionName := function } = Except.error e := by
    rw [hsame]; exact h
  exact ⟨set_of_fetch_error c₁ function vars e h,
    set_of_fetch_error c₂ function vars e h₂,
    unset_of_fetch_error c₁ function names e h,
    unset_of_fetch_error c₂ function names e h₂⟩

/-- The post-write snapshot returned by the concrete clients below; its
stored value for bar deliberately differs from anything requested. -/
def confStored : FunctionConfiguration :=
  { environment := some { vars := some ((Env.empty.insert "keep" "old").insert "bar" "stored") } }

/-- The snapshot returned by the concrete fetch operations below. -/
def confFetched : FunctionConfiguration :=
  { environment := some { vars := some demoEnv } }

/-- A concrete client whose two operations both succeed. -/
def okClient : LambdaClient Nat Nat :=
  { getFunctionConfiguration := fun _ => Except.ok confFetched,
    updateFunctionConfiguration := fun _ => Except.ok confStored }

/-- A concrete client whose fetch operation fails with remote error 7. -/
def failGetClient : LambdaClient Nat Nat :=
  { getFunctionConfiguration := fun _ => Except.error 7,
    updateFunctionConfiguration := fun _ => Except.ok confStored }

/-- A concrete client whose fetch succeeds and whose write operation fails
with remote error 9. -/
def failUpdateClient : LambdaClient Nat Nat :=
  { getFunctionConfiguration := fun _ => Except.ok confFetched,
    updateFunctionConfiguration := fun _ => Except.error 9 }

theorem claim_C3_witness :
    set failGetClient "f" [("a", "b")] = Except.error (Error.GetConfig 7) ∧
    set { failGetClient with updateFunctionConfiguration := fun _ => Except.error 9 }
        "f" [("a", "b")] = Except.error (Error.GetConfig 7) ∧
    unset failGetClient "f" ["a"] = Except.error (Error.GetConfig 7) :=
  let h := claim_C3 failGetClient
    { failGetClient with updateFunctionConfiguration := fun _ => Except.error 9 }
    "f" [("a", "b")] ["a"] 7 rfl rfl
  ⟨h.1, h.2.1, h.2.2.1⟩

/-- C4: whenever the fetch stage succeeds and the replace-configuration
call fails, either mutation path fails with the write-stage tag wrapping
the underlying remote error untouched; the fetch-stage and write-stage
tags are distinct variants of the operation error type. -/
theorem claim_C4 (c : LambdaClient GErr UErr) (function : String)
    (vars : List (String × String)) (names : List String)
    (conf : FunctionConfiguration)
    (h : c.getFunctionConfiguration { functionName := function } = Except.ok conf) :
    (∀ e, c.updateFunctionConfiguration
        (updateRequest function (assignMerge (env conf) vars)) = Except.error e →
      set c function vars = Except.error (Error.UpdateConfig e)) ∧
    (∀ e, c.updateFunctionConfiguration
        (updateRequest function (removeMerge (env conf) names)) = Except.error e →
      unset c function names = Except.error (Error.UpdateConfig e)) ∧
    (∀ (e₁ : GErr) (e₂ : UErr),
      (Error.GetConfig e₁ : Error GErr UErr) ≠ Error.UpdateConfig e₂) := by
  refine ⟨?_, ?_, ?_⟩
  · intro e he
    rw [set_of_fetch_ok c function vars conf h, he]
    rfl
  · intro e he
    rw [unset_of_fetch_ok c function names conf h, he]
    rfl
  · intro e₁ e₂ hc
    exact Error.noConfusion hc

theorem claim_C4_witness :
    set failUpdateClient "f" [("a", "b")] = Except.error (Error.UpdateConfig 9) ∧
    unset failUpdateClient "f" ["a"] = Except.error (Error.UpdateConfig 9) ∧
    (Error.GetConfig 9 : Error Nat Nat) ≠ Error.UpdateConfig 9 :=
  let h := claim_C4 failUpdateClient "f" [("a", "b")] ["a"] confFetched rfl
  ⟨h.1 9 rfl, h.2.1 9 rfl, h.2.2 9 9⟩

/-- C5: after a successful fetch each mutation path performs exactly one
replace-configuration call whose request carries the merged mapping as the
entire new environment block (a full replacement), the merge starting from
the fetched mapping, so every remote key not named in the request keeps
its fetched value in the written block. -/
theorem claim_C5 (c : LambdaClient GErr UErr) (function : String)
    (vars : List (String × String)) (names : List String)
    (conf : FunctionConfiguration)
    (h : c.getFunctionConfiguration { functionName := function } = Except.ok conf) :
    set c function vars
      = ((c.updateFunctionConfiguration
          (updateRequest function (assignMerge (env conf) vars))).map env).mapError
          Error.UpdateConfig ∧
    unset c function names
      = ((c.updateFunctionConfiguration
          (updateRequest function (removeMerge (env conf) names))).map env).mapError
          Error.UpdateConfig ∧
    (updateRequest function (assignMerge (env conf) vars)).environment
      = some { vars := some (assignMerge (env conf) vars) } ∧
    (updateRequest function (removeMerge (env conf) names)).environment
      = some { vars := some (removeMerge (env conf) names) } ∧
    (∀ k, k ∉ vars.map Prod.fst → assignMerge (env conf) vars k = env conf k) ∧
    (∀ k, k ∉ names → removeMerge (env conf) names k = env conf k) := by
  refine ⟨set_of_fetch_ok c function vars conf h,
    unset_of_fetch_ok c function names conf h, rfl, rfl, ?_, ?_⟩
  · intro k hk
    rw [assignMerge_apply, lastValue_eq_none vars k hk]
    rfl
  · intro k hk
    rw [removeMerge_apply, if_neg hk]

theorem claim_C5_witness :
    set okClient "f" [("bar", "new")] = Except.ok (env confStored) ∧
    unset okClient "f" ["bar"] = Except.ok (env confStored) ∧
    assignMerge (env confFetched) [("bar", "new")] "keep" = env confFetched "keep" ∧
    removeMerge (env confFetched) ["bar"] "keep" = env confFetched "keep" :=
  let h := claim_C5 okClient "f" [("bar", "new")] ["bar"] confFetched rfl
  ⟨by rw [h.1]; rfl,
   by rw [h.2.1]; rfl,
   h.2.2.2.2.1 "keep" (by decide),
   h.2.2.2.2.2 "keep" (by decide)⟩

/-- C7: on a successful mutation the mapping handed back is the one
extracted from the snapshot the replace-configuration call returned (the
post-write remote state), whatever that snapshot is, and not the locally
computed desired mapping. -/
theorem claim_C7 (c : LambdaClient GErr UErr) (function : String)
    (vars : List (String × String)) (names : List String)
    (conf : FunctionConfiguration)
    (h : c.getFunctionConfiguration { functionName := function } = Except.ok conf) :
    (∀ conf₂, c.updateFunctionConfiguration
        (updateRequest function (assignMerge (env conf) vars)) = Except.ok conf₂ →
      set c function vars = Except.ok (env conf₂)) ∧
    (∀ conf₂, c.updateFunctionConfiguration
        (updateRequest function (removeMerge (env conf) names)) = Except.ok conf₂ →
      unset c function names = Except.ok (env conf₂)) := by
  constructor
  · intro conf₂ he
    rw [set_of_fetch_ok c function vars conf h, he]
    rfl
  · intro conf₂ he
    rw [unset_of_fetch_ok c function names conf h, he]
    rfl

theorem claim_C7_witness :
    set okClient "f" [("bar", "new")] = Except.ok (env confStored) ∧
    env confStored "bar" = some "stored" ∧
    assignMerge (env confFetched) [("bar", "new")] "bar" = some "new" ∧
    unset okClient "f" ["keep"] = Except.ok (env confStored) :=
  let h := claim_C7 okClient "f" [("bar", "new")] ["keep"] confFetched rfl
  ⟨h.1 confStored rfl, by decide, by decide, h.2 confStored rfl⟩

/-- C9: the read-only path performs only the fetch stage: its outcome is
the same for every client sharing the fetch behaviour whatever the write
behaviour (so no replace-configuration call is issued), on success it is
the mapping extracted from the fetched snapshot, and on failure it is the
fetch-stage tag wrapping the underlying remote error. -/
theorem claim_C9 (c₁ c₂ : LambdaClient GErr UErr) (function : String)
    (hsame : c₂.getFunctionConfiguration = c₁.getFunctionConfiguration) :
    mainGet c₂ function = mainGet c₁ function ∧
    (∀ conf, c₁.getFunctionConfiguration { functionName := function } = Except.ok conf →
      mainGet c₁ function = Except.ok (env conf)) ∧
    (∀ e, c₁.getFunctionConfiguration { functionName := function } = Except.error e →
      mainGet c₁ function = Except.error (Error.GetConfig e)) := by
  refine ⟨?_, ?_, ?_⟩
  · unfold mainGet get
    rw [hsame]
  · intro conf h
    unfold mainGet get
    rw [h]
    rfl
  · intro e h
    unfold mainGet get
    rw [h]
    rfl

theorem claim_C9_witness :
    mainGet failUpdateClient "f" = Except.ok (env confFetched) ∧
    mainGet failGetClient "f" = Except.error (Error.GetConfig 7) :=
  ⟨(claim_C9 failUpdateClient failUpdateClient "f" rfl).2.1 confFetched rfl,
   (claim_C9 failGetClient failGetClient "f" rfl).2.2 7 rfl⟩

theorem findEq_isSome (s : List Char) : (findEq s).isSome = true ↔ '=' ∈ s := by
  induction s with
  | nil => simp [findEq]
  | cons c rest ih =>
    by_cases h : c = '='
    · subst h
      simp [findEq]
    · have h2 : ¬ ('=' : Char) = c := fun hh => h hh.symm
      simp [findEq, h, h2]
      cases hr : findEq rest with
      | none => rw [hr] at ih; simpa using ih
      | some pos => rw [hr] at ih; simpa using ih

theorem findEq_append (a b : List Char) (h : '=' ∉ a) :
    findEq (a ++ '=' :: b) = some a.length := by
  induction a with
  | nil => simp [findEq]
  | cons c rest ih =>
    simp only [List.mem_cons] at h
    push_neg at h
    have hc : ¬ c = '=' := fun hh => h.1 hh.symm
    simp [findEq, hc, ih h.2]

/-- C10: parsing a set-command argument succeeds exactly when it contains
the separator character; on success the name is the text before the first
separator and the value is everything after it (so the value may itself
contain separators and either side may be empty). -/
theorem claim_C10 (s : List Char) :
    ((parse_key_val s).isSome = true ↔ '=' ∈ s) ∧
    (∀ a b, s = a ++ '=' :: b → '=' ∉ a → parse_key_val s = some (a, b)) := by
  constructor
  · have hp : (parse_key_val s).isSome = (findEq s).isSome := by
      unfold parse_key_val
      cases findEq s with
      | none => rfl
      | some pos => rfl
    rw [hp]
    exact findEq_isSome s
  · intro a b hs ha
    subst hs
    unfold parse_key_val
    rw [findEq_append a b ha]
    have hdrop : (a ++ '=' :: b).drop (a.length + 1) = b := by
      have h1 : a ++ '=' :: b = (a ++ ['=']) ++ b := by simp
      have h2 : a.length + 1 = (a ++ ['=']).length := by simp
      rw [h1, h2, List.drop_left]
    show some ((a ++ '=' :: b).take a.length, (a ++ '=' :: b).drop (a.length + 1))
      = some (a, b)
    rw [List.take_left, hdrop]

theorem claim_C10_witness :
    parse_key_val ['a', '=', 'b', '=', 'c'] = some (['a'], ['b', '=', 'c']) ∧
    parse_key_val ['='] = some ([], []) :=
  ⟨(claim_C10 ['a', '=', 'b', '=', 'c']).2 ['a'] ['b', '=', 'c'] rfl (by decide),
   (claim_C10 ['=']).2 [] [] rfl (by decide)⟩

end Lev
